import Mathlib

/-!
Shallow embedding of the data-aggregation layer of the linear-dashboards
repository (src/lib/linear-api.ts and src/types/linear.ts), together with
theorems settling the stated claims about it.

Modelling conventions:
* JavaScript numbers are modelled as exact rationals (ℚ) where fractional
  values can occur (issue estimates and the derived sums and averages), and
  as integers where the code only ever handles integers (timestamps in
  milliseconds, counters, page sizes).
* `Math.round` on the non-negative arguments produced here is `⌊q + 1/2⌋`.
* Optional / possibly-undefined fields are `Option`; the JavaScript read
  `x || d` on a numeric or string field is `Option.getD`.
* Date strings are modelled by the integer `new Date(s).getTime()` value
  they parse to, since the code only ever uses them through `getTime()`.
* Fallible asynchronous calls (Apollo queries) are modelled as
  `Except`-valued oracles, indexed by call number where the code issues a
  sequence of dependent calls.
-/

/-- Mirror of `LinearIssueState` (src/types/linear.ts). -/
structure LinearIssueState where
  id : String
  name : String
  type : String
  color : String
deriving Repr, DecidableEq

/-- Mirror of `LinearLabel` (src/types/linear.ts). -/
structure LinearLabel where
  id : String
  name : String
  color : Option String
deriving Repr, DecidableEq

/-- Mirror of the `labels: { nodes: LinearLabel[] }` connection wrapper on
issues (src/types/linear.ts). -/
structure LinearLabelConnection where
  nodes : List LinearLabel
deriving Repr, DecidableEq

/-- Mirror of `LabelCount` (src/types/linear.ts). -/
structure LabelCount where
  id : String
  name : String
  color : Option String
  count : Nat
deriving Repr, DecidableEq

/-- Mirror of `LinearUser` (src/types/linear.ts), restricted to the fields
the aggregation layer constructs. -/
structure LinearUser where
  id : String
  name : String
  email : String
deriving Repr, DecidableEq

/-- Mirror of `LinearTeam` (src/types/linear.ts), restricted to the fields
the aggregation layer reads or copies. -/
structure LinearTeam where
  id : String
  name : String
  key : String
  color : Option String
  issueEstimationType : Option String
deriving Repr, DecidableEq

/-- Mirror of `LinearCycle` (src/types/linear.ts), restricted to the fields
the aggregation layer constructs (linear-api.ts lines 373-384). -/
structure LinearCycle where
  id : String
  number : Int
  name : Option String
  startsAt : String
  endsAt : String
  team : LinearTeam
  progress : ℚ
  scopeHistory : List ℚ
  completedScopeHistory : List ℚ
  inProgressScopeHistory : List ℚ
deriving Repr, DecidableEq

/-- Mirror of `LinearIssue` (src/types/linear.ts), restricted to the fields
the aggregation layer reads or constructs. The lifecycle timestamps are
milliseconds since the epoch (the value of `new Date(s).getTime()`). -/
structure LinearIssue where
  id : String
  identifier : String
  title : String
  estimate : Option ℚ
  state : LinearIssueState
  team : LinearTeam
  assignee : Option LinearUser
  cycle : Option LinearCycle
  createdAt : Int
  updatedAt : Int
  startedAt : Option Int
  completedAt : Option Int
  labels : Option LinearLabelConnection
deriving Repr, DecidableEq

/-- Mirror of `TeamMetrics` (src/types/linear.ts), base part produced by
`calculateTeamMetrics` (the optional `labelCounts` and `meta` blocks are
attached later by the dashboard assembler). -/
structure TeamMetrics where
  team : LinearTeam
  cycle : Option LinearCycle
  scope : ℚ
  started : ℚ
  completed : ℚ
  scopePercentage : Int
  startedPercentage : Int
  completedPercentage : Int
  usesEstimation : Bool
  metricType : String
deriving Repr, DecidableEq

/-- JavaScript `Math.round` for the non-negative arguments produced by this
code: round half-up, i.e. `⌊q + 1/2⌋`. -/
def jsRound (q : ℚ) : Int := ⌊q + 1/2⌋

/-- Mirror of `isStartedState` (linear-api.ts line 21). -/
def isStartedState (state : LinearIssueState) : Bool :=
  state.type == "started"

/-- Mirror of `isCompletedState` (linear-api.ts line 28). -/
def isCompletedState (state : LinearIssueState) : Bool :=
  state.type == "completed"

/-- Mirror of `teamUsesEstimation` (linear-api.ts line 35):
`issueEstimationType !== undefined && issueEstimationType !== 'notUsed'`. -/
def teamUsesEstimation (team : LinearTeam) : Bool :=
  team.issueEstimationType.isSome && team.issueEstimationType != some "notUsed"

/-- The JavaScript read `issue.estimate || 0` (linear-api.ts lines 60-68):
an absent estimate, like an explicit zero, reads as 0. -/
def estimateOrZero (issue : LinearIssue) : ℚ :=
  issue.estimate.getD 0

/-- Mirror of `calculateTeamMetrics` (linear-api.ts lines 45-92). The three
`reduce((sum, issue) => sum + (issue.estimate || 0), 0)` folds are written
as sums of the mapped lists (`List.sum` is that fold). -/
def calculateTeamMetrics (team : LinearTeam) (cycle : Option LinearCycle)
    (issues : List LinearIssue) : TeamMetrics :=
  let usesEstimation := teamUsesEstimation team
  let metricType := if usesEstimation then "story_points" else "issues"
  let scope : ℚ :=
    if usesEstimation then
      ((issues.filter (fun issue => 0 < estimateOrZero issue)).map estimateOrZero).sum
    else
      (issues.length : ℚ)
  let started : ℚ :=
    if usesEstimation then
      (((issues.filter (fun issue => 0 < estimateOrZero issue)).filter
          (fun issue => isStartedState issue.state)).map estimateOrZero).sum
    else
      ((issues.filter (fun issue => isStartedState issue.state)).length : ℚ)
  let completed : ℚ :=
    if usesEstimation then
      (((issues.filter (fun issue => 0 < estimateOrZero issue)).filter
          (fun issue => isCompletedState issue.state)).map estimateOrZero).sum
    else
      ((issues.filter (fun issue => isCompletedState issue.state)).length : ℚ)
  { team := team
    cycle := cycle
    scope := scope
    started := started
    completed := completed
    scopePercentage := if 0 < scope then 100 else 0
    startedPercentage := if 0 < scope then jsRound (started / scope * 100) else 0
    completedPercentage := if 0 < scope then jsRound (completed / scope * 100) else 0
    usesEstimation := usesEstimation
    metricType := metricType }

/-- Erases the estimate of an issue; used only to state that the counting
mode of `calculateTeamMetrics` ignores estimate values entirely. -/
def clearEstimate (issue : LinearIssue) : LinearIssue :=
  { issue with estimate := none }

/-! ### Upstream GraphQL response shapes (linear-api.ts lines 192-233) -/

/-- Mirror of the `state` field of the raw `IssueNode` (linear-api.ts line
197): unlike `LinearIssueState`, its `color` may be absent. -/
structure IssueNodeState where
  id : String
  name : String
  type : String
  color : Option String
deriving Repr, DecidableEq

/-- Mirror of the `assignee` field of the raw `IssueNode` (line 198). -/
structure AssigneeNode where
  id : String
  name : String
  email : Option String
deriving Repr, DecidableEq

/-- Mirror of `IssueNode` (linear-api.ts lines 192-204): the raw issue
record returned by the combined and pagination queries. -/
structure IssueNode where
  id : String
  identifier : Option String
  title : String
  estimate : Option ℚ
  state : IssueNodeState
  assignee : Option AssigneeNode
  createdAt : Int
  updatedAt : Option Int
  startedAt : Option Int
  completedAt : Option Int
  labels : Option LinearLabelConnection
deriving Repr, DecidableEq

/-- Mirror of `pageInfo` (linear-api.ts line 208). -/
structure PageInfo where
  hasNextPage : Bool
  endCursor : Option String
deriving Repr, DecidableEq

/-- Mirror of `IssuesPage` (linear-api.ts lines 206-209). -/
structure IssuesPage where
  nodes : List IssueNode
  pageInfo : Option PageInfo
deriving Repr, DecidableEq

/-- Mirror of the `activeCycle` field of `TeamNode` (lines 217-224). -/
structure ActiveCycleNode where
  id : String
  number : Int
  name : Option String
  startsAt : String
  endsAt : String
  issues : IssuesPage
deriving Repr, DecidableEq

/-- Mirror of `TeamNode` (linear-api.ts lines 211-225). -/
structure TeamNode where
  id : String
  name : String
  key : String
  color : Option String
  issueEstimationType : Option String
  activeCycle : Option ActiveCycleNode
deriving Repr, DecidableEq

/-- The `teams` connection of the combined query response. Both the
connection and its `nodes` list are optional, mirroring
`{ teams?: { nodes?: TeamNode[] } }` (line 127). -/
structure TeamsConnection where
  nodes : Option (List TeamNode)
deriving Repr, DecidableEq

/-- The `data` value of the combined query response (line 127). -/
structure TeamsData where
  teams : Option TeamsConnection
deriving Repr, DecidableEq

/-! ### Error shapes and complexity detection (linear-api.ts lines 106-125) -/

/-- An upstream GraphQL error entry: `{ message?: string }`. -/
structure GqlError where
  message : Option String
deriving Repr, DecidableEq

/-- A thrown error value as far as `isComplexityError` inspects it: an
optional `Error#message` and the optional
`networkError.result.errors` list of an Apollo-like error. -/
structure ThrownError where
  message : Option String
  networkErrors : Option (List GqlError)
deriving Repr, DecidableEq

/-- Leading-match test on character lists (does `needle` start `hay`?). -/
def charsMatch : List Char → List Char → Bool
  | [], _ => true
  | _ :: _, [] => false
  | a :: as, b :: bs => a == b && charsMatch as bs

/-- Substring search on character lists. -/
def charsFind (needle : List Char) : List Char → Bool
  | [] => needle.isEmpty
  | b :: rest => charsMatch needle (b :: rest) || charsFind needle rest

/-- JavaScript `toLowerCase`, written as a structurally evaluable map over
the character list. -/
def jsToLower (s : String) : String := { data := s.data.map Char.toLower }

/-- Case-insensitive JavaScript `m.toLowerCase().includes(needle)` for a
lowercase needle. -/
def lowerContains (s needle : String) : Bool :=
  charsFind needle.data (jsToLower s).data

/-- Mirror of `hasComplexityMessageFromErrors` (lines 109-112): some
message, lowercased, contains "complex". -/
def hasComplexityMessageFromErrors (errors : List GqlError) : Bool :=
  errors.any (fun e => lowerContains (e.message.getD "") "complex")

/-- Mirror of `isComplexityError` (lines 114-125) applied to a thrown
error value: true when the nested `networkError.result.errors` carry a
complexity message, or when the error message itself does. -/
def isComplexityError (e : ThrownError) : Bool :=
  hasComplexityMessageFromErrors (e.networkErrors.getD [])
    || lowerContains (e.message.getD "") "complex"

deriving instance DecidableEq for Except

/-- The `Error` thrown by `runCombined` when the combined query result
carries complexity errors (lines 143-145). -/
def complexityThrown : ThrownError :=
  { message := some "Query too complex (result.errors)", networkErrors := none }

/-- The result of one Apollo call of the combined query: its optional
`data` and its `errors` list. -/
structure TeamsQueryResult where
  data : Option TeamsData
  errors : List GqlError
deriving Repr, DecidableEq

/-- Mirror of `runCombined` (lines 131-149) applied to the outcome of its
single Apollo call: a transport failure propagates; a result whose
`errors` carry a complexity message becomes a thrown `ComplexityError`;
otherwise the (possibly absent) data is returned. -/
def runCombined (call : Except ThrownError TeamsQueryResult) :
    Except ThrownError (Option TeamsData) :=
  match call with
  | .error e => .error e
  | .ok result =>
    if !result.errors.isEmpty && hasComplexityMessageFromErrors result.errors then
      .error complexityThrown
    else
      .ok result.data

/-- Outcome of the complexity-fallback ladder of `fetchDashboardData`
(lines 151-173): the data or the propagated error, the final values of the
`firstPageSizeUsed` and `needFirstPageLabelRefetch` variables, and the
trace of `(withLabels, issuesPage)` arguments of the combined-query calls
actually issued, in order. -/
structure LadderOutcome where
  result : Except ThrownError (Option TeamsData)
  firstPageSizeUsed : Nat
  needFirstPageLabelRefetch : Bool
  calls : List (Bool × Nat)
deriving Repr, DecidableEq

/-- Mirror of the combined-query fallback ladder (lines 102 and 151-173).
`oracle k` is the outcome of the k-th Apollo call of the combined query;
`initialPageRaw` is the configured initial page size before the clamp
`Math.max(10, Math.min(100, ...))` of line 102. -/
def fetchCombinedWithFallbacks (oracle : Nat → Except ThrownError TeamsQueryResult)
    (initialPageRaw : Nat) : LadderOutcome :=
  let INITIAL_ISSUES_PAGE := max 10 (min 100 initialPageRaw)
  match runCombined (oracle 0) with
  | .ok d => ⟨.ok d, INITIAL_ISSUES_PAGE, false, [(true, INITIAL_ISSUES_PAGE)]⟩
  | .error err =>
    if isComplexityError err then
      let size1 := min 50 INITIAL_ISSUES_PAGE
      match runCombined (oracle 1) with
      | .ok d => ⟨.ok d, size1, false, [(true, INITIAL_ISSUES_PAGE), (true, size1)]⟩
      | .error err2 =>
        if isComplexityError err2 then
          match runCombined (oracle 2) with
          | .ok d =>
            ⟨.ok d, 25, true, [(true, INITIAL_ISSUES_PAGE), (true, size1), (false, 25)]⟩
          | .error err3 =>
            ⟨.error err3, 25, true, [(true, INITIAL_ISSUES_PAGE), (true, size1), (false, 25)]⟩
        else
          ⟨.error err2, size1, false, [(true, INITIAL_ISSUES_PAGE), (true, size1)]⟩
    else
      ⟨.error err, INITIAL_ISSUES_PAGE, false, [(true, INITIAL_ISSUES_PAGE)]⟩

/-! ### Pagination engine (linear-api.ts lines 279-341) -/

/-- The result of one Apollo call of `GET_MORE_CYCLE_ISSUES`: the `errors`
list of the response and the optional `res.data.cycle.issues` page. -/
structure PageResult where
  errors : List GqlError
  page : Option IssuesPage
deriving Repr, DecidableEq

/-- JavaScript truthiness of the `prevCursor` string: `undefined` and the
empty string are falsy. -/
def cursorTruthy : Option String → Bool
  | none => false
  | some s => !s.isEmpty

/-- The clamp `Math.max(1, Math.min(1000, ... || 100))` of line 283. -/
def maxPagesClamped (raw : Nat) : Nat := max 1 (min 1000 raw)

/-- Body of the `while (hasNext)` pagination loop (lines 287-339). `fuel`
is `MAX_PAGES - pageCounter` (the loop exits at the top once the counter
reaches `MAX_PAGES`, and the counter grows by one per fetched page);
`idx` numbers the Apollo calls; `acc` is the `all` accumulator; `cursor`
is the cursor the next request is issued with. One recursive call is one
loop iteration whose page was accepted; every other path `break`s. -/
def goIssues (oracle : Nat → Except ThrownError PageResult) :
    Nat → Nat → List IssueNode → Option String → List IssueNode
  | 0, _, acc, _ => acc
  | fuel + 1, idx, acc, cursor =>
    match oracle idx with
    | .error _ => acc
    | .ok res =>
      if !res.errors.isEmpty && hasComplexityMessageFromErrors res.errors then acc
      else
        match res.page with
        | none => acc
        | some page =>
          if page.nodes.isEmpty then acc
          else
            let acc2 := acc ++ page.nodes
            let hasNext := (page.pageInfo.map (fun pi => pi.hasNextPage)).getD false
            let newCursor := page.pageInfo.bind (fun pi => pi.endCursor)
            if cursorTruthy cursor && cursor == newCursor then acc2
            else if hasNext then goIssues oracle fuel (idx + 1) acc2 newCursor
            else acc2

/-- Mirror of `fetchAllCycleIssues` (lines 279-341). `oracle k` is the
outcome of the k-th `GET_MORE_CYCLE_ISSUES` call for this cycle (a thrown
error models the `catch` path, which always breaks); `maxPagesRaw` is the
configured `MAX_PAGES` before its clamp. -/
def fetchAllCycleIssues (oracle : Nat → Except ThrownError PageResult)
    (maxPagesRaw : Nat) (firstPage : Option IssuesPage) : List IssueNode :=
  let all := (firstPage.map (fun p => p.nodes)).getD []
  let hasNext := ((firstPage.bind (fun p => p.pageInfo)).map (fun pi => pi.hasNextPage)).getD false
  let cursor := (firstPage.bind (fun p => p.pageInfo)).bind (fun pi => pi.endCursor)
  if hasNext then goIssues oracle (maxPagesClamped maxPagesRaw) 0 all cursor else all

/-- Specification companion of `goIssues`, following the claim wording: the
list of node-lists of the successfully fetched pages, in fetch order, up to
the point where the loop stops. Same recursion structure as `goIssues`. -/
def goPages (oracle : Nat → Except ThrownError PageResult) :
    Nat → Nat → Option String → List (List IssueNode)
  | 0, _, _ => []
  | fuel + 1, idx, cursor =>
    match oracle idx with
    | .error _ => []
    | .ok res =>
      if !res.errors.isEmpty && hasComplexityMessageFromErrors res.errors then []
      else
        match res.page with
        | none => []
        | some page =>
          if page.nodes.isEmpty then []
          else
            let hasNext := (page.pageInfo.map (fun pi => pi.hasNextPage)).getD false
            let newCursor := page.pageInfo.bind (fun pi => pi.endCursor)
            if cursorTruthy cursor && cursor == newCursor then [page.nodes]
            else if hasNext then page.nodes :: goPages oracle fuel (idx + 1) newCursor
            else [page.nodes]

/-- Specification companion of `fetchAllCycleIssues`: the node-lists of the
pages fetched beyond the first page. -/
def fetchedPages (oracle : Nat → Except ThrownError PageResult)
    (maxPagesRaw : Nat) (firstPage : Option IssuesPage) : List (List IssueNode) :=
  let hasNext := ((firstPage.bind (fun p => p.pageInfo)).map (fun pi => pi.hasNextPage)).getD false
  let cursor := (firstPage.bind (fun p => p.pageInfo)).bind (fun pi => pi.endCursor)
  if hasNext then goPages oracle (maxPagesClamped maxPagesRaw) 0 cursor else []

/-! ### Per-team processing (linear-api.ts lines 344-469) -/

/-- Mapping of a raw `TeamNode` to a `LinearTeam` (lines 346-352). -/
def toLinearTeam (teamData : TeamNode) : LinearTeam :=
  { id := teamData.id
    name := teamData.name
    key := teamData.key
    color := teamData.color
    issueEstimationType := teamData.issueEstimationType }

/-- Mapping of a raw `activeCycle` node to a `LinearCycle` (lines 373-384). -/
def toLinearCycle (team : LinearTeam) (ac : ActiveCycleNode) : LinearCycle :=
  { id := ac.id
    number := ac.number
    name := ac.name
    startsAt := ac.startsAt
    endsAt := ac.endsAt
    team := team
    progress := 0
    scopeHistory := []
    completedScopeHistory := []
    inProgressScopeHistory := [] }

/-- Mapping of a raw `IssueNode` to a `LinearIssue` (lines 391-410). -/
def toLinearIssue (team : LinearTeam) (cycle : Option LinearCycle)
    (issueData : IssueNode) : LinearIssue :=
  { id := issueData.id
    identifier := issueData.identifier.getD issueData.id
    title := issueData.title
    estimate := issueData.estimate
    state :=
      { id := issueData.state.id
        name := issueData.state.name
        type := issueData.state.type
        color := issueData.state.color.getD "#000000" }
    team := team
    assignee := issueData.assignee.map (fun a =>
      { id := a.id, name := a.name, email := a.email.getD "" })
    cycle := cycle
    createdAt := issueData.createdAt
    updatedAt := issueData.updatedAt.getD issueData.createdAt
    startedAt := issueData.startedAt
    completedAt := issueData.completedAt
    labels := issueData.labels }

/-- The labels attached to an issue: `issue.labels?.nodes || []` (line 421). -/
def issueLabels (issue : LinearIssue) : List LinearLabel :=
  (issue.labels.map (fun c => c.nodes)).getD []

/-- One step of the label-count accumulation (lines 422-425): the JS `Map`
keyed by label id, kept as an association list in insertion order. An
existing entry keeps its position and gains one count (name and color are
overwritten with the latest occurrence); a new id is appended with count 1. -/
def bumpLabel : List LabelCount → LinearLabel → List LabelCount
  | [], lbl => [{ id := lbl.id, name := lbl.name, color := lbl.color, count := 1 }]
  | e :: rest, lbl =>
    if e.id = lbl.id then
      { id := lbl.id, name := lbl.name, color := lbl.color, count := e.count + 1 } :: rest
    else
      e :: bumpLabel rest lbl

/-- The label map of an issue list (lines 419-426): for every issue, for
every attached label, bump that label's counter. -/
def labelMapOf (issues : List LinearIssue) : List LabelCount :=
  issues.foldl (fun m issue => (issueLabels issue).foldl bumpLabel m) []

/-- The sort comparator of line 427, `b.count - a.count ||
a.name.localeCompare(b.name)`, as the non-strict "may precede" relation:
descending count, ties broken by ascending name (string order models the
locale comparison). -/
def labelCountLE (a b : LabelCount) : Bool :=
  b.count < a.count || (a.count == b.count && decide (a.name ≤ b.name))

/-- Mirror of the `labelCounts` computation (lines 419-427): accumulate
per-label counters, then sort. `Array.prototype.sort` is stable, as is
`List.mergeSort`, so ties that the comparator leaves at 0 keep insertion
order in both. -/
def labelCountsOf (issues : List LinearIssue) : List LabelCount :=
  (labelMapOf issues).mergeSort labelCountLE

/-- All label occurrences of an issue list, used to state what
`labelCountsOf` counts. -/
def labelOccurrences (issues : List LinearIssue) : List LinearLabel :=
  (issues.map issueLabels).flatten

/-- Lookup of the accumulated count for a label id (0 when absent); proof
device for reasoning about `labelMapOf`. -/
def countOf (m : List LabelCount) (id : String) : Nat :=
  match m.find? (fun e => e.id == id) with
  | some e => e.count
  | none => 0

/-- An entry of the assembled dashboard team list (line 467): the base
metrics plus the label-frequency table. The `meta` block (average cycle /
triage / open-age times and the team lead) is wall-clock- and
network-dependent and is modelled separately (`computeAccurateTriageAvg`). -/
structure DashboardTeamEntry where
  base : TeamMetrics
  labelCounts : List LabelCount
deriving Repr, DecidableEq

/-- Mirror of the per-team closure of `fetchDashboardData` (lines 344-468),
with the team's issue acquisition (first-page selection or label refetch,
pagination, and node mapping — lines 386-413) abstracted as the
`Except`-valued `fetched`: the `catch` of line 411 leaves `issues` empty,
and the team is still processed. -/
def processTeam (teamData : TeamNode)
    (fetched : Except ThrownError (List IssueNode)) : DashboardTeamEntry :=
  let team := toLinearTeam teamData
  match teamData.activeCycle with
  | none =>
    { base := calculateTeamMetrics team none []
      labelCounts := labelCountsOf [] }
  | some ac =>
    let cycle := toLinearCycle team ac
    let issues : List LinearIssue :=
      match fetched with
      | .ok nodes => nodes.map (toLinearIssue team (some cycle))
      | .error _ => []
    { base := calculateTeamMetrics team (some cycle) issues
      labelCounts := labelCountsOf issues }

/-- Mirror of the `Promise.all(data.teams.nodes.map(...))` fan-out (lines
344-469): every team is processed independently and the output order
follows the input order. -/
def processTeams (teams : List TeamNode)
    (fetchFor : TeamNode → Except ThrownError (List IssueNode)) :
    List DashboardTeamEntry :=
  teams.map (fun t => processTeam t (fetchFor t))

/-! ### Accurate triage averaging (linear-api.ts lines 235-275) -/

/-- Mirror of `HistoryNode`'s optional state references (lines 229-233):
`fromState?: { type?: string } | null`. -/
structure HistoryStateRef where
  type : Option String
deriving Repr, DecidableEq

/-- Mirror of `HistoryNode` (lines 229-233); `createdAt` is the parsed
timestamp in milliseconds. -/
structure HistoryNode where
  createdAt : Int
  fromState : Option HistoryStateRef
  toState : Option HistoryStateRef
deriving Repr, DecidableEq

/-- The read `(n.fromState?.type || '').toLowerCase()` (line 256). -/
def historyFromType (n : HistoryNode) : String :=
  jsToLower ((n.fromState.bind (fun s => s.type)).getD "")

/-- The read `(n.toState?.type || '').toLowerCase()` (line 256). -/
def historyToType (n : HistoryNode) : String :=
  jsToLower ((n.toState.bind (fun s => s.type)).getD "")

/-- The duration one sampled issue pushes onto `durations` (lines 252-267),
given the outcome of its history fetch: `none` when the fetch failed
(the rejection is ignored by `Promise.allSettled`), when the computed
duration is not strictly positive, or when there is neither a matching
transition nor a `startedAt`. The matching transition is the first one
with `fromState` type in `{triage, backlog}` and `toState` type not equal
to `'triage'` (all lowercased). -/
def issueTriageContribution (history : Except ThrownError (List HistoryNode))
    (issue : LinearIssue) : Option Int :=
  match history with
  | .error _ => none
  | .ok nodes =>
    match nodes.find? (fun n =>
        (historyFromType n == "triage" || historyFromType n == "backlog")
          && historyToType n != "triage") with
    | some leaving =>
      let d := max 0 (leaving.createdAt - issue.createdAt)
      if 0 < d then some d else none
    | none =>
      match issue.startedAt with
      | some s =>
        let d := max 0 (s - issue.createdAt)
        if 0 < d then some d else none
      | none => none

/-- The chunking of lines 246-249: split a list into consecutive groups of
`CONCURRENCY` issues. Structural recursion on a length fuel; the step size
is forced to at least 1, as the clamp of line 238 guarantees. -/
def chunksOfGo (k : Nat) : Nat → List LinearIssue → List (List LinearIssue)
  | 0, _ => []
  | _ + 1, [] => []
  | fuel + 1, l@(_ :: _) => l.take (max 1 k) :: chunksOfGo k fuel (l.drop (max 1 k))

/-- Split a list into consecutive chunks of size `max 1 k`. -/
def chunksOf (k : Nat) (l : List LinearIssue) : List (List LinearIssue) :=
  chunksOfGo k l.length l

/-- Mirror of `computeAccurateTriageAvg` (lines 235-275). `historyFor id
first` is the outcome of the `GET_ISSUE_HISTORY` call for that issue id
with page bound `first` (the code always passes 20); `concurrencyRaw` is
the configured history concurrency before the clamp of line 238. Within a
batch the completion order of pushes is scheduler-dependent, but the final
rounded average is order-independent, so batch order is used. -/
def computeAccurateTriageAvg
    (historyFor : String → Nat → Except ThrownError (List HistoryNode))
    (concurrencyRaw : Nat) (issuesForTeam : List LinearIssue) : Option Int :=
  let CONCURRENCY := max 1 (min 10 concurrencyRaw)
  let sample := issuesForTeam.take 40
  if sample.isEmpty then none
  else
    let durations : List Int :=
      ((chunksOf CONCURRENCY sample).map (fun group =>
        group.filterMap (fun issue =>
          issueTriageContribution (historyFor issue.id 20) issue))).flatten
    if durations.isEmpty then none
    else some (jsRound ((durations.sum : ℚ) / (durations.length : ℚ)))

/-- The claim's reading of the average triage time, stated for comparison
with `computeAccurateTriageAvg`: the first transition leaving a triage- or
backlog-typed state into any OTHER state (a state of a different type than
the one left) yields that transition's timestamp minus `createdAt`;
otherwise `startedAt − createdAt` when `startedAt` exists; the result is
the rounded average over the sampled issues that yielded a value. -/
def issueTriageContributionClaim (history : Except ThrownError (List HistoryNode))
    (issue : LinearIssue) : Option Int :=
  match history with
  | .error _ => none
  | .ok nodes =>
    match nodes.find? (fun n =>
        (historyFromType n == "triage" || historyFromType n == "backlog")
          && historyToType n != historyFromType n) with
    | some leaving => some (leaving.createdAt - issue.createdAt)
    | none =>
      match issue.startedAt with
      | some s => some (s - issue.createdAt)
      | none => none

/-- The claim's reading of `computeAccurateTriageAvg` as a whole; see
`issueTriageContributionClaim`. -/
def computeAccurateTriageAvgClaim
    (historyFor : String → Nat → Except ThrownError (List HistoryNode))
    (issuesForTeam : List LinearIssue) : Option Int :=
  let sample := issuesForTeam.take 40
  let durations : List Int :=
    sample.filterMap (fun issue =>
      issueTriageContributionClaim (historyFor issue.id 20) issue)
  if durations.isEmpty then none
  else some (jsRound ((durations.sum : ℚ) / (durations.length : ℚ)))

/-! ### Fixtures for witnesses and counterexamples -/

/-- A fixed issue state of the given type. -/
def mkState (t : String) : LinearIssueState :=
  { id := "state-" ++ t, name := t, type := t, color := "#000000" }

/-- A team in counting mode (`issueEstimationType` absent). -/
def countingTeam : LinearTeam :=
  { id := "team-c", name := "Counting", key := "CNT", color := none,
    issueEstimationType := none }

/-- A team in estimation mode. -/
def estimatingTeam : LinearTeam :=
  { id := "team-e", name := "Estimating", key := "EST", color := none,
    issueEstimationType := some "fibonacci" }

/-- A minimal issue with the given id, estimate and state type. -/
def mkIssue (id : String) (est : Option ℚ) (stateType : String) : LinearIssue :=
  { id := id, identifier := id, title := id, estimate := est,
    state := mkState stateType, team := countingTeam, assignee := none,
    cycle := none, createdAt := 0, updatedAt := 0, startedAt := none,
    completedAt := none, labels := none }

/-- A minimal raw issue node with the given id. -/
def mkNode (id : String) : IssueNode :=
  { id := id, identifier := none, title := id, estimate := none,
    state := { id := "s", name := "Todo", type := "unstarted", color := none },
    assignee := none, createdAt := 0, updatedAt := none, startedAt := none,
    completedAt := none, labels := none }


/-- A one-node issues page fixture. -/
def stallPage (tag : String) (hasNext : Bool) (cursor : Option String) : IssuesPage :=
  { nodes := [mkNode tag], pageInfo := some { hasNextPage := hasNext, endCursor := cursor } }

/-- An upstream whose first paginated page repeats the empty-string cursor
and still reports more pages, and whose second page is final. -/
def stallOracle : Nat → Except ThrownError PageResult := fun k =>
  if k = 0 then .ok { errors := [], page := some (stallPage "b" true (some "")) }
  else .ok { errors := [], page := some (stallPage "c" false (some "x")) }

/-- An upstream that always repeats the non-empty cursor "c1". -/
def truthyStallOracle : Nat → Except ThrownError PageResult := fun _ =>
  .ok { errors := [], page := some (stallPage "b" true (some "c1")) }

/-- The page result `truthyStallOracle` always returns. -/
def truthyStallResult : PageResult :=
  { errors := [], page := some (stallPage "b" true (some "c1")) }

/-- An upstream whose every paginated call throws. -/
def failingOracle : Nat → Except ThrownError PageResult := fun _ =>
  .error { message := some "network down", networkErrors := none }


/-- An active cycle node for the degradation witness. -/
def witnessCycleNode : ActiveCycleNode :=
  { id := "cyc-1", number := 1, name := none,
    startsAt := "2024-01-01", endsAt := "2024-01-14",
    issues := { nodes := [], pageInfo := none } }

/-- A team node with an active cycle, for the degradation witness. -/
def witnessTeamNode : TeamNode :=
  { id := "t1", name := "Team One", key := "T1", color := none,
    issueEstimationType := none, activeCycle := some witnessCycleNode }

/-- A per-team issue acquisition that always fails. -/
def failFetch : TeamNode → Except ThrownError (List IssueNode) := fun _ =>
  .error { message := some "boom", networkErrors := none }


/-- A thrown error whose message mentions complexity. -/
def complexMsgErr : ThrownError :=
  { message := some "too complex", networkErrors := none }

/-- A successful combined-query payload with an empty team list. -/
def ladderData : TeamsData := { teams := some { nodes := some [] } }

/-- A combined-query oracle whose first call fails with a complexity error
and whose later calls succeed. -/
def ladderOracle : Nat → Except ThrownError TeamsQueryResult := fun k =>
  if k = 0 then .error complexMsgErr
  else .ok { data := some ladderData, errors := [] }


/-- A history with a single backlog-to-triage transition at time 10. -/
def backlogToTriageHistory : List HistoryNode :=
  [{ createdAt := 10, fromState := some { type := some "backlog" },
     toState := some { type := some "triage" } }]

/-- A history oracle that always returns `backlogToTriageHistory`. -/
def triageHistoryOracle : String → Nat → Except ThrownError (List HistoryNode) :=
  fun _ _ => .ok backlogToTriageHistory


/-- The expected label-count entry for the label-frequency witness. -/
def bugLabelCount : LabelCount := { id := "l1", name := "Bug", color := none, count := 1 }

/-- An issue carrying one label, for the label-frequency witness. -/
def labeledIssue : LinearIssue :=
  { mkIssue "i2" none "started" with
    labels := some { nodes := [{ id := "l1", name := "Bug", color := none }] } }

/-! ## Shared lemmas -/

lemma jsRound_nonneg {q : ℚ} (h : 0 ≤ q) : 0 ≤ jsRound q := by
  unfold jsRound
  exact Int.le_floor.mpr (by push_cast; linarith)

lemma jsRound_le_hundred {q : ℚ} (h : q ≤ 100) : jsRound q ≤ 100 := by
  unfold jsRound
  have h2 : ⌊(100 : ℚ) + 1/2⌋ = 100 := by
    rw [Int.floor_eq_iff]
    norm_num
  calc ⌊q + 1/2⌋ ≤ ⌊(100 : ℚ) + 1/2⌋ := Int.floor_le_floor (by linarith)
    _ = 100 := h2

lemma ratio_hundred_nonneg {s scope : ℚ} (h0 : 0 < scope) (hs : 0 ≤ s) :
    0 ≤ s / scope * 100 := by positivity

lemma ratio_hundred_le {s scope : ℚ} (h0 : 0 < scope) (hs : s ≤ scope) :
    s / scope * 100 ≤ 100 := by
  have h1 : s / scope ≤ 1 := (div_le_one h0).mpr hs
  nlinarith

/-- The scope field in estimation mode. -/
lemma cTM_scope_est {team : LinearTeam} (cycle : Option LinearCycle)
    (issues : List LinearIssue) (h : teamUsesEstimation team = true) :
    (calculateTeamMetrics team cycle issues).scope
      = ((issues.filter (fun issue => 0 < estimateOrZero issue)).map
          estimateOrZero).sum := by
  simp [calculateTeamMetrics, h]

lemma cTM_started_est {team : LinearTeam} (cycle : Option LinearCycle)
    (issues : List LinearIssue) (h : teamUsesEstimation team = true) :
    (calculateTeamMetrics team cycle issues).started
      = (((issues.filter (fun issue => 0 < estimateOrZero issue)).filter
          (fun issue => isStartedState issue.state)).map estimateOrZero).sum := by
  simp [calculateTeamMetrics, h]

lemma cTM_completed_est {team : LinearTeam} (cycle : Option LinearCycle)
    (issues : List LinearIssue) (h : teamUsesEstimation team = true) :
    (calculateTeamMetrics team cycle issues).completed
      = (((issues.filter (fun issue => 0 < estimateOrZero issue)).filter
          (fun issue => isCompletedState issue.state)).map estimateOrZero).sum := by
  simp [calculateTeamMetrics, h]

/-- The scope field in counting mode. -/
lemma cTM_scope_cnt {team : LinearTeam} (cycle : Option LinearCycle)
    (issues : List LinearIssue) (h : teamUsesEstimation team = false) :
    (calculateTeamMetrics team cycle issues).scope = (issues.length : ℚ) := by
  simp [calculateTeamMetrics, h]

lemma cTM_started_cnt {team : LinearTeam} (cycle : Option LinearCycle)
    (issues : List LinearIssue) (h : teamUsesEstimation team = false) :
    (calculateTeamMetrics team cycle issues).started
      = ((issues.filter (fun issue => isStartedState issue.state)).length : ℚ) := by
  simp [calculateTeamMetrics, h]

lemma cTM_completed_cnt {team : LinearTeam} (cycle : Option LinearCycle)
    (issues : List LinearIssue) (h : teamUsesEstimation team = false) :
    (calculateTeamMetrics team cycle issues).completed
      = ((issues.filter (fun issue => isCompletedState issue.state)).length : ℚ) := by
  simp [calculateTeamMetrics, h]

/-- The percentage fields of `calculateTeamMetrics` as functions of its
scope/started/completed fields. -/
lemma calculateTeamMetrics_scopePercentage_eq (team : LinearTeam)
    (cycle : Option LinearCycle) (issues : List LinearIssue) :
    (calculateTeamMetrics team cycle issues).scopePercentage
      = if 0 < (calculateTeamMetrics team cycle issues).scope then 100 else 0 := rfl

lemma calculateTeamMetrics_startedPercentage_eq (team : LinearTeam)
    (cycle : Option LinearCycle) (issues : List LinearIssue) :
    (calculateTeamMetrics team cycle issues).startedPercentage
      = if 0 < (calculateTeamMetrics team cycle issues).scope then
          jsRound ((calculateTeamMetrics team cycle issues).started
            / (calculateTeamMetrics team cycle issues).scope * 100)
        else 0 := rfl

lemma calculateTeamMetrics_completedPercentage_eq (team : LinearTeam)
    (cycle : Option LinearCycle) (issues : List LinearIssue) :
    (calculateTeamMetrics team cycle issues).completedPercentage
      = if 0 < (calculateTeamMetrics team cycle issues).scope then
          jsRound ((calculateTeamMetrics team cycle issues).completed
            / (calculateTeamMetrics team cycle issues).scope * 100)
        else 0 := rfl

/-- Bounds for a story-point sum over a further-filtered estimated list. -/
lemma sum_est_filter_bounds (issues : List LinearIssue) (p : LinearIssue → Bool) :
    0 ≤ (((issues.filter (fun issue => 0 < estimateOrZero issue)).filter p).map
          estimateOrZero).sum
    ∧ (((issues.filter (fun issue => 0 < estimateOrZero issue)).filter p).map
          estimateOrZero).sum
        ≤ ((issues.filter (fun issue => 0 < estimateOrZero issue)).map
          estimateOrZero).sum := by
  have hmem : ∀ x ∈ (issues.filter (fun issue => 0 < estimateOrZero issue)).map
      estimateOrZero, (0 : ℚ) ≤ x := by
    intro x hx
    obtain ⟨i, hi, rfl⟩ := List.mem_map.mp hx
    exact le_of_lt (of_decide_eq_true (List.mem_filter.mp hi).2)
  constructor
  · apply List.sum_nonneg
    intro x hx
    obtain ⟨i, hi, rfl⟩ := List.mem_map.mp hx
    have hi2 : i ∈ issues.filter (fun issue => 0 < estimateOrZero issue) :=
      (List.filter_sublist _).mem hi
    exact le_of_lt (of_decide_eq_true (List.mem_filter.mp hi2).2)
  · exact List.Sublist.sum_le_sum
      ((List.filter_sublist _).map estimateOrZero) hmem

/-- scope/started/completed bounds of `calculateTeamMetrics`, in both
accounting modes. -/
lemma calculateTeamMetrics_sums_bounds (team : LinearTeam)
    (cycle : Option LinearCycle) (issues : List LinearIssue) :
    0 ≤ (calculateTeamMetrics team cycle issues).started
    ∧ (calculateTeamMetrics team cycle issues).started
        ≤ (calculateTeamMetrics team cycle issues).scope
    ∧ 0 ≤ (calculateTeamMetrics team cycle issues).completed
    ∧ (calculateTeamMetrics team cycle issues).completed
        ≤ (calculateTeamMetrics team cycle issues).scope := by
  cases hU : teamUsesEstimation team with
  | true =>
    have hs := sum_est_filter_bounds issues (fun issue => isStartedState issue.state)
    have hc := sum_est_filter_bounds issues (fun issue => isCompletedState issue.state)
    rw [cTM_scope_est cycle issues hU, cTM_started_est cycle issues hU,
        cTM_completed_est cycle issues hU]
    exact ⟨hs.1, hs.2, hc.1, hc.2⟩
  | false =>
    rw [cTM_scope_cnt cycle issues hU, cTM_started_cnt cycle issues hU,
        cTM_completed_cnt cycle issues hU]
    refine ⟨by positivity, ?_, by positivity, ?_⟩
    · exact_mod_cast List.length_filter_le _ _
    · exact_mod_cast List.length_filter_le _ _

/-! ## Claims about the metrics calculator -/

/-- C1: for every team with `usesEstimation = true`, `calculateTeamMetrics`
returns `scope` equal to the sum of `estimate` over issues with
`estimate > 0`, `started` (resp. `completed`) equal to that sum restricted
to issues whose state type is exactly `started` (resp. `completed`), and
issues with absent or zero estimate contribute nothing: dropping them from
the input changes nothing. -/
theorem calculateTeamMetrics_estimation_mode (team : LinearTeam)
    (cycle : Option LinearCycle) (issues : List LinearIssue)
    (h : teamUsesEstimation team = true) :
    (calculateTeamMetrics team cycle issues).scope
        = ((issues.filter (fun issue => 0 < estimateOrZero issue)).map
            estimateOrZero).sum
    ∧ (calculateTeamMetrics team cycle issues).started
        = ((issues.filter (fun issue => issue.state.type == "started"
            && decide (0 < estimateOrZero issue))).map estimateOrZero).sum
    ∧ (calculateTeamMetrics team cycle issues).completed
        = ((issues.filter (fun issue => issue.state.type == "completed"
            && decide (0 < estimateOrZero issue))).map estimateOrZero).sum
    ∧ calculateTeamMetrics team cycle issues
        = calculateTeamMetrics team cycle
            (issues.filter (fun issue => 0 < estimateOrZero issue)) := by
  refine ⟨cTM_scope_est cycle issues h, ?_, ?_, ?_⟩
  · rw [cTM_started_est cycle issues h, List.filter_filter]
    simp [isStartedState]
  · rw [cTM_completed_est cycle issues h, List.filter_filter]
    simp [isCompletedState]
  · simp [calculateTeamMetrics, h, List.filter_filter]

theorem calculateTeamMetrics_estimation_mode_witness :
    teamUsesEstimation estimatingTeam = true
    ∧ (calculateTeamMetrics estimatingTeam none
          [mkIssue "1" (some 3) "started", mkIssue "2" (some 5) "completed",
           mkIssue "3" (some 0) "started", mkIssue "4" none "completed"]).scope
        = (([mkIssue "1" (some 3) "started", mkIssue "2" (some 5) "completed",
             mkIssue "3" (some 0) "started", mkIssue "4" none "completed"].filter
            (fun issue => 0 < estimateOrZero issue)).map estimateOrZero).sum :=
  ⟨by decide,
   (calculateTeamMetrics_estimation_mode estimatingTeam none _ (by decide)).1⟩

/-- C2: for every team with `usesEstimation = false`, `calculateTeamMetrics`
counts issues: `scope` is the number of issues, `started` / `completed` the
number of issues whose state type is exactly the literal `started` /
`completed`, and estimate values are ignored entirely (erasing every
estimate changes nothing). -/
theorem calculateTeamMetrics_counting_mode (team : LinearTeam)
    (cycle : Option LinearCycle) (issues : List LinearIssue)
    (h : teamUsesEstimation team = false) :
    (calculateTeamMetrics team cycle issues).scope = (issues.length : ℚ)
    ∧ (calculateTeamMetrics team cycle issues).started
        = ((issues.filter (fun issue => issue.state.type == "started")).length : ℚ)
    ∧ (calculateTeamMetrics team cycle issues).completed
        = ((issues.filter (fun issue => issue.state.type == "completed")).length : ℚ)
    ∧ calculateTeamMetrics team cycle issues
        = calculateTeamMetrics team cycle (issues.map clearEstimate) := by
  refine ⟨cTM_scope_cnt cycle issues h, ?_, ?_, ?_⟩
  · rw [cTM_started_cnt cycle issues h]
    simp [isStartedState]
  · rw [cTM_completed_cnt cycle issues h]
    simp [isCompletedState]
  · have hstart : (issues.map clearEstimate).filter
        (fun issue => isStartedState issue.state)
        = (issues.filter (fun issue => isStartedState issue.state)).map
            clearEstimate := by
      rw [List.filter_map]
      exact rfl
    have hcomp : (issues.map clearEstimate).filter
        (fun issue => isCompletedState issue.state)
        = (issues.filter (fun issue => isCompletedState issue.state)).map
            clearEstimate := by
      rw [List.filter_map]
      exact rfl
    simp [calculateTeamMetrics, h, hstart, hcomp]

theorem calculateTeamMetrics_counting_mode_witness :
    teamUsesEstimation countingTeam = false
    ∧ (calculateTeamMetrics countingTeam none
          [mkIssue "1" (some 3) "started", mkIssue "2" none "completed",
           mkIssue "3" none "backlog"]).scope
        = (([mkIssue "1" (some 3) "started", mkIssue "2" none "completed",
             mkIssue "3" none "backlog"] : List LinearIssue).length : ℚ) :=
  ⟨by decide,
   (calculateTeamMetrics_counting_mode countingTeam none _ (by decide)).1⟩

/-- C3: the percentage laws of `calculateTeamMetrics`: `scopePercentage` is
100 exactly when scope is positive and 0 when scope is 0;
`startedPercentage` and `completedPercentage` are the half-up rounding of
the ratio times 100 when scope is positive, and 0 when scope is 0. -/
theorem calculateTeamMetrics_percentage_laws (team : LinearTeam)
    (cycle : Option LinearCycle) (issues : List LinearIssue) :
    ((calculateTeamMetrics team cycle issues).scopePercentage = 100
        ↔ 0 < (calculateTeamMetrics team cycle issues).scope)
    ∧ ((calculateTeamMetrics team cycle issues).scope = 0 →
        (calculateTeamMetrics team cycle issues).scopePercentage = 0
        ∧ (calculateTeamMetrics team cycle issues).startedPercentage = 0
        ∧ (calculateTeamMetrics team cycle issues).completedPercentage = 0)
    ∧ (0 < (calculateTeamMetrics team cycle issues).scope →
        (calculateTeamMetrics team cycle issues).startedPercentage
          = ⌊100 * (calculateTeamMetrics team cycle issues).started
              / (calculateTeamMetrics team cycle issues).scope + 1/2⌋)
    ∧ (0 < (calculateTeamMetrics team cycle issues).scope →
        (calculateTeamMetrics team cycle issues).completedPercentage
          = ⌊100 * (calculateTeamMetrics team cycle issues).completed
              / (calculateTeamMetrics team cycle issues).scope + 1/2⌋) := by
  refine ⟨?_, ?_, ?_, ?_⟩
  · rw [calculateTeamMetrics_scopePercentage_eq]
    split_ifs with hpos
    · simp [hpos]
    · simp [hpos]
  · intro h0
    have hnot : ¬ 0 < (calculateTeamMetrics team cycle issues).scope := by
      rw [h0]; exact lt_irrefl 0
    rw [calculateTeamMetrics_scopePercentage_eq,
        calculateTeamMetrics_startedPercentage_eq,
        calculateTeamMetrics_completedPercentage_eq]
    simp [hnot]
  · intro hpos
    rw [calculateTeamMetrics_startedPercentage_eq, if_pos hpos]
    unfold jsRound
    congr 1
    ring
  · intro hpos
    rw [calculateTeamMetrics_completedPercentage_eq, if_pos hpos]
    unfold jsRound
    congr 1
    ring

theorem calculateTeamMetrics_percentage_laws_witness :
    (calculateTeamMetrics countingTeam none []).scope = 0
    ∧ (calculateTeamMetrics countingTeam none []).scopePercentage = 0
    ∧ (calculateTeamMetrics countingTeam none []).startedPercentage = 0
    ∧ (calculateTeamMetrics countingTeam none []).completedPercentage = 0 :=
  ⟨by simp [calculateTeamMetrics, countingTeam, teamUsesEstimation],
   (calculateTeamMetrics_percentage_laws countingTeam none []).2.1
     (by simp [calculateTeamMetrics, countingTeam, teamUsesEstimation])⟩

/-- C10: for every team, cycle and issue list — including degenerate
estimates and arbitrary state types — `calculateTeamMetrics` (a total
function) satisfies `0 ≤ started ≤ scope` and `0 ≤ completed ≤ scope`,
and consequently its started/completed percentages lie in `[0, 100]`. -/
theorem calculateTeamMetrics_invariants (team : LinearTeam)
    (cycle : Option LinearCycle) (issues : List LinearIssue) :
    0 ≤ (calculateTeamMetrics team cycle issues).started
    ∧ (calculateTeamMetrics team cycle issues).started
        ≤ (calculateTeamMetrics team cycle issues).scope
    ∧ 0 ≤ (calculateTeamMetrics team cycle issues).completed
    ∧ (calculateTeamMetrics team cycle issues).completed
        ≤ (calculateTeamMetrics team cycle issues).scope
    ∧ 0 ≤ (calculateTeamMetrics team cycle issues).startedPercentage
    ∧ (calculateTeamMetrics team cycle issues).startedPercentage ≤ 100
    ∧ 0 ≤ (calculateTeamMetrics team cycle issues).completedPercentage
    ∧ (calculateTeamMetrics team cycle issues).completedPercentage ≤ 100 := by
  obtain ⟨hs0, hsle, hc0, hcle⟩ := calculateTeamMetrics_sums_bounds team cycle issues
  refine ⟨hs0, hsle, hc0, hcle, ?_, ?_, ?_, ?_⟩
  · rw [calculateTeamMetrics_startedPercentage_eq]
    split_ifs with hpos
    · exact jsRound_nonneg (ratio_hundred_nonneg hpos hs0)
    · exact le_refl 0
  · rw [calculateTeamMetrics_startedPercentage_eq]
    split_ifs with hpos
    · exact jsRound_le_hundred (ratio_hundred_le hpos hsle)
    · norm_num
  · rw [calculateTeamMetrics_completedPercentage_eq]
    split_ifs with hpos
    · exact jsRound_nonneg (ratio_hundred_nonneg hpos hc0)
    · exact le_refl 0
  · rw [calculateTeamMetrics_completedPercentage_eq]
    split_ifs with hpos
    · exact jsRound_le_hundred (ratio_hundred_le hpos hcle)
    · norm_num

/-! ## Label-frequency lemmas -/

lemma countOf_nil (id : String) : countOf [] id = 0 := rfl

lemma countOf_cons (e : LabelCount) (m : List LabelCount) (id : String) :
    countOf (e :: m) id = if e.id == id then e.count else countOf m id := by
  unfold countOf
  rw [List.find?_cons]
  cases h : e.id == id <;> simp [h]

lemma bumpLabel_countOf (m : List LabelCount) (lbl : LinearLabel) (id : String) :
    countOf (bumpLabel m lbl) id
      = countOf m id + (if lbl.id == id then 1 else 0) := by
  induction m with
  | nil =>
    rw [bumpLabel, countOf_cons, countOf_nil]
    cases h : lbl.id == id <;> simp [h]
  | cons e rest ih =>
    by_cases he : e.id = lbl.id
    · rw [bumpLabel, if_pos he, countOf_cons, countOf_cons]
      by_cases h : lbl.id = id
      · have he2 : e.id = id := he.trans h
        simp [h, he2]
      · have he2 : ¬ e.id = id := fun hc => h (he.symm.trans hc)
        simp [h, he2]
    · rw [bumpLabel, if_neg he, countOf_cons, countOf_cons, ih]
      by_cases h : e.id = id
      · have hli : ¬ lbl.id = id := fun hc => he (h.trans hc.symm)
        simp [h, hli]
      · simp [h]

lemma bumpLabel_ids (m : List LabelCount) (lbl : LinearLabel) :
    (bumpLabel m lbl).map (fun e => e.id)
      = if lbl.id ∈ m.map (fun e => e.id) then m.map (fun e => e.id)
        else m.map (fun e => e.id) ++ [lbl.id] := by
  induction m with
  | nil => simp [bumpLabel]
  | cons e rest ih =>
    by_cases he : e.id = lbl.id
    · rw [bumpLabel, if_pos he]
      simp [he]
    · rw [bumpLabel, if_neg he]
      simp only [List.map_cons, ih]
      by_cases hm : lbl.id ∈ rest.map (fun e => e.id)
      · rw [if_pos hm, if_pos (show lbl.id ∈ e.id :: rest.map (fun e => e.id) from
          List.mem_cons_of_mem _ hm)]
      · have hc : lbl.id ∉ e.id :: rest.map (fun e => e.id) := by
          intro hcc
          rcases List.mem_cons.mp hcc with h | h
          · exact he h.symm
          · exact hm h
        rw [if_neg hm, if_neg hc, List.cons_append]

lemma bumpLabel_nodup {m : List LabelCount} (lbl : LinearLabel)
    (h : (m.map (fun e => e.id)).Nodup) :
    ((bumpLabel m lbl).map (fun e => e.id)).Nodup := by
  rw [bumpLabel_ids]
  split_ifs with hm
  · exact h
  · simp [List.nodup_append, h, hm]

lemma foldl_bumpLabel_countOf (ls : List LinearLabel) (m : List LabelCount)
    (id : String) :
    countOf (ls.foldl bumpLabel m) id
      = countOf m id + (ls.filter (fun l => l.id == id)).length := by
  induction ls generalizing m with
  | nil => simp
  | cons l t ih =>
    rw [List.foldl_cons, ih, bumpLabel_countOf]
    cases h : l.id == id
    · simp [List.filter_cons, h]
    · simp [List.filter_cons, h]
      omega

lemma foldl_bumpLabel_nodup (ls : List LinearLabel) {m : List LabelCount}
    (h : (m.map (fun e => e.id)).Nodup) :
    (((ls.foldl bumpLabel m)).map (fun e => e.id)).Nodup := by
  induction ls generalizing m with
  | nil => exact h
  | cons l t ih => exact ih (bumpLabel_nodup l h)

lemma countOf_pos_mem {m : List LabelCount} {id : String}
    (h : countOf m id ≠ 0) : ∃ e ∈ m, e.id = id := by
  unfold countOf at h
  cases hf : m.find? (fun e => e.id == id) with
  | none => rw [hf] at h; exact absurd rfl h
  | some e =>
    refine ⟨e, List.mem_of_find?_eq_some hf, ?_⟩
    have := List.find?_some hf
    simpa using this

lemma countOf_eq_of_mem {m : List LabelCount} {e : LabelCount}
    (hnd : (m.map (fun x => x.id)).Nodup) (he : e ∈ m) :
    countOf m e.id = e.count := by
  induction m with
  | nil => cases he
  | cons a rest ih =>
    rw [countOf_cons]
    rcases List.mem_cons.mp he with rfl | hrest
    · simp
    · have hane : a.id ≠ e.id := by
        intro heq
        have : a.id ∈ rest.map (fun x => x.id) := by
          rw [heq]
          exact List.mem_map.mpr ⟨e, hrest, rfl⟩
        exact (List.nodup_cons.mp (by simpa using hnd)).1 this
      have hrest_nd : (rest.map (fun x => x.id)).Nodup :=
        (List.nodup_cons.mp (by simpa using hnd)).2
      simp [hane, ih hrest_nd hrest]

lemma labelMapOf_eq_foldl (issues : List LinearIssue) :
    labelMapOf issues = (labelOccurrences issues).foldl bumpLabel [] := by
  unfold labelMapOf labelOccurrences
  generalize ([] : List LabelCount) = m0
  induction issues generalizing m0 with
  | nil => rfl
  | cons i t ih =>
    rw [List.foldl_cons, ih, List.map_cons, List.flatten_cons, List.foldl_append]

lemma labelMapOf_countOf (issues : List LinearIssue) (id : String) :
    countOf (labelMapOf issues) id
      = ((labelOccurrences issues).filter (fun l => l.id == id)).length := by
  rw [labelMapOf_eq_foldl, foldl_bumpLabel_countOf, countOf_nil]
  omega

lemma labelMapOf_nodup (issues : List LinearIssue) :
    ((labelMapOf issues).map (fun e => e.id)).Nodup := by
  rw [labelMapOf_eq_foldl]
  exact foldl_bumpLabel_nodup _ (by simp)

lemma labelCountLE_trans (a b c : LabelCount) (hab : labelCountLE a b = true)
    (hbc : labelCountLE b c = true) : labelCountLE a c = true := by
  simp only [labelCountLE, Bool.or_eq_true, Bool.and_eq_true, decide_eq_true_eq,
    beq_iff_eq] at *
  rcases hab with h1 | ⟨h1, h2⟩ <;> rcases hbc with h3 | ⟨h3, h4⟩
  · exact Or.inl (by omega)
  · exact Or.inl (by omega)
  · exact Or.inl (by omega)
  · exact Or.inr ⟨by omega, le_trans h2 h4⟩

lemma labelCountLE_total (a b : LabelCount) :
    (labelCountLE a b || labelCountLE b a) = true := by
  simp only [labelCountLE, Bool.or_eq_true, Bool.and_eq_true, decide_eq_true_eq,
    beq_iff_eq]
  rcases lt_trichotomy a.count b.count with h | h | h
  · exact Or.inr (Or.inl h)
  · rcases le_total a.name b.name with hn | hn
    · exact Or.inl (Or.inr ⟨h, hn⟩)
    · exact Or.inr (Or.inr ⟨h.symm, hn⟩)
  · exact Or.inl (Or.inl h)

/-- C8: the per-team label-frequency table counts, for every issue, every
attached label occurrence; each label id appears at most once; every
occurring label id appears; the emitted list is sorted by descending count
with ties broken by ascending label name; and recomputation on the same
issue list is (definitionally) identical. -/
theorem labelCountsOf_spec (issues : List LinearIssue) :
    (∀ e ∈ labelCountsOf issues,
        e.count = ((labelOccurrences issues).filter (fun l => l.id == e.id)).length)
    ∧ ((labelCountsOf issues).map (fun e => e.id)).Nodup
    ∧ (∀ lbl ∈ labelOccurrences issues, ∃ e ∈ labelCountsOf issues, e.id = lbl.id)
    ∧ (labelCountsOf issues).Pairwise
        (fun a b => b.count < a.count ∨ (a.count = b.count ∧ a.name ≤ b.name))
    ∧ labelCountsOf issues = labelCountsOf issues := by
  have hperm : (labelCountsOf issues).Perm (labelMapOf issues) :=
    List.mergeSort_perm (labelMapOf issues) labelCountLE
  have hnd : ((labelMapOf issues).map (fun e => e.id)).Nodup :=
    labelMapOf_nodup issues
  refine ⟨?_, ?_, ?_, ?_, rfl⟩
  · intro e he
    have hm : e ∈ labelMapOf issues := hperm.mem_iff.mp he
    rw [← countOf_eq_of_mem hnd hm, labelMapOf_countOf]
  · exact (List.Perm.nodup_iff (hperm.map (fun e => e.id))).mpr hnd
  · intro lbl hl
    have hpos : countOf (labelMapOf issues) lbl.id ≠ 0 := by
      rw [labelMapOf_countOf]
      have : lbl ∈ (labelOccurrences issues).filter (fun l => l.id == lbl.id) :=
        List.mem_filter.mpr ⟨hl, by simp⟩
      have hlen := List.length_pos.mpr (List.ne_nil_of_mem this)
      omega
    obtain ⟨e, hem, heid⟩ := countOf_pos_mem hpos
    exact ⟨e, hperm.mem_iff.mpr hem, heid⟩
  · have hsorted := @List.sorted_mergeSort LabelCount labelCountLE
      labelCountLE_trans labelCountLE_total (labelMapOf issues)
    refine hsorted.imp ?_
    intro a b hab
    simpa only [labelCountLE, Bool.or_eq_true, Bool.and_eq_true,
      decide_eq_true_eq, beq_iff_eq] using hab

/-! ## Pagination lemmas -/

/-- The pagination loop accumulates exactly the pages that
`goPages` records. -/
lemma goIssues_append (oracle : Nat → Except ThrownError PageResult) :
    ∀ (fuel idx : Nat) (acc : List IssueNode) (cursor : Option String),
    goIssues oracle fuel idx acc cursor
      = acc ++ (goPages oracle fuel idx cursor).flatten := by
  intro fuel
  induction fuel with
  | zero => intro idx acc cursor; simp [goIssues, goPages]
  | succ fuel ih =>
    intro idx acc cursor
    simp only [goIssues, goPages]
    cases ho : oracle idx with
    | error e => simp
    | ok res =>
      cases herr : (!res.errors.isEmpty && hasComplexityMessageFromErrors res.errors) with
      | true => simp [herr]
      | false =>
        simp only [herr, Bool.false_eq_true, if_false]
        cases hp : res.page with
        | none => simp
        | some page =>
          cases hni : page.nodes.isEmpty with
          | true => simp [hni]
          | false =>
            simp only [hni, Bool.false_eq_true, if_false]
            cases hst : (cursorTruthy cursor
                && cursor == page.pageInfo.bind (fun pi => pi.endCursor)) with
            | true => simp [hst]
            | false =>
              cases hhn : (page.pageInfo.map (fun pi => pi.hasNextPage)).getD false with
              | true => simp [hst, hhn, ih, List.append_assoc]
              | false => simp [hst, hhn]

/-- C6: a network or application error (or complexity error) while fetching
a later page never escapes `fetchAllCycleIssues`: the loop stops right
there and the accumulated partial list is returned; in particular an error
on the first paginated call returns exactly the first page's nodes. -/
theorem fetchAllCycleIssues_error_partial :
    (∀ (oracle : Nat → Except ThrownError PageResult) (fuel idx : Nat)
        (acc : List IssueNode) (cursor : Option String) (e : ThrownError),
        oracle idx = .error e →
        goIssues oracle (fuel + 1) idx acc cursor = acc)
    ∧ (∀ (oracle : Nat → Except ThrownError PageResult) (fuel idx : Nat)
        (acc : List IssueNode) (cursor : Option String) (res : PageResult),
        oracle idx = .ok res →
        (!res.errors.isEmpty && hasComplexityMessageFromErrors res.errors) = true →
        goIssues oracle (fuel + 1) idx acc cursor = acc)
    ∧ (∀ (oracle : Nat → Except ThrownError PageResult) (maxPagesRaw : Nat)
        (p : IssuesPage) (pi : PageInfo) (e : ThrownError),
        p.pageInfo = some pi → pi.hasNextPage = true →
        oracle 0 = .error e →
        fetchAllCycleIssues oracle maxPagesRaw (some p) = p.nodes) := by
  refine ⟨?_, ?_, ?_⟩
  · intro oracle fuel idx acc cursor e he
    simp [goIssues, he]
  · intro oracle fuel idx acc cursor res hres herr
    simp [goIssues, hres, herr]
  · intro oracle maxPagesRaw p pi e hpi hnext he
    obtain ⟨k, hk⟩ : ∃ k, maxPagesClamped maxPagesRaw = k + 1 :=
      ⟨maxPagesClamped maxPagesRaw - 1, by unfold maxPagesClamped; omega⟩
    unfold fetchAllCycleIssues
    simp only [hpi, hnext, Option.bind_some, Option.map_some, Option.getD_some,
      Option.map_some', Option.getD_some, if_true, hk]
    simp [goIssues, he, hk]

theorem fetchAllCycleIssues_error_partial_witness :
    failingOracle 0 = .error { message := some "network down", networkErrors := none }
    ∧ goIssues failingOracle 1 0 [mkNode "a"] none = [mkNode "a"] :=
  ⟨rfl,
   fetchAllCycleIssues_error_partial.1 failingOracle 0 0 [mkNode "a"] none
     { message := some "network down", networkErrors := none } rfl⟩

/-- C5 counterexample: the claim says pagination stops when the cursor
returned by a page is identical to the previous cursor, which at the input
below (previous cursor and returned cursor both the empty string) would
stop after the page `b` and return the two nodes `a, b`; the code only
applies the stall guard to a truthy (non-empty) previous cursor, keeps
going, and returns three nodes. -/
theorem fetchAllCycleIssues_stale_cursor_counterexample :
    fetchAllCycleIssues stallOracle 100 (some (stallPage "a" true (some "")))
      = [mkNode "a", mkNode "b", mkNode "c"]
    ∧ ¬ fetchAllCycleIssues stallOracle 100 (some (stallPage "a" true (some "")))
      = [mkNode "a", mkNode "b"] := by
  constructor
  · decide
  · decide

/-- C5 (amended): `fetchAllCycleIssues` always terminates (it is a total
function of a fuel bounded by the clamped `MAX_PAGES`) and returns the
first page's nodes followed by the nodes of every successfully fetched
subsequent page up to the stopping point, so its length is the sum of the
fetched page lengths; and when a fetched page reports more pages but
returns a cursor identical to the previous, *non-empty* cursor, the loop
stops with that page included. -/
theorem fetchAllCycleIssues_pagination (oracle : Nat → Except ThrownError PageResult)
    (maxPagesRaw : Nat) (firstPage : Option IssuesPage) :
    fetchAllCycleIssues oracle maxPagesRaw firstPage
      = (firstPage.map (fun p => p.nodes)).getD []
          ++ (fetchedPages oracle maxPagesRaw firstPage).flatten
    ∧ (fetchAllCycleIssues oracle maxPagesRaw firstPage).length
      = ((firstPage.map (fun p => p.nodes)).getD []).length
          + ((fetchedPages oracle maxPagesRaw firstPage).map List.length).sum
    ∧ (∀ (fuel idx : Nat) (acc : List IssueNode) (cursor : Option String)
          (res : PageResult) (page : IssuesPage),
        oracle idx = .ok res → res.page = some page →
        (!res.errors.isEmpty && hasComplexityMessageFromErrors res.errors) = false →
        page.nodes.isEmpty = false →
        cursorTruthy cursor = true →
        (cursor == page.pageInfo.bind (fun pi => pi.endCursor)) = true →
        goIssues oracle (fuel + 1) idx acc cursor = acc ++ page.nodes) := by
  have hmain : fetchAllCycleIssues oracle maxPagesRaw firstPage
      = (firstPage.map (fun p => p.nodes)).getD []
          ++ (fetchedPages oracle maxPagesRaw firstPage).flatten := by
    unfold fetchAllCycleIssues fetchedPages
    cases hn : ((firstPage.bind (fun p => p.pageInfo)).map (fun pi => pi.hasNextPage)).getD false with
    | true => simp [hn, goIssues_append]
    | false => simp [hn]
  refine ⟨hmain, ?_, ?_⟩
  · rw [hmain, List.length_append, List.length_flatten]
  · intro fuel idx acc cursor res page hres hpage herr hni htr hst
    simp [goIssues, hres, herr, hpage, hni, htr, hst]

theorem fetchAllCycleIssues_pagination_witness :
    truthyStallOracle 0 = .ok truthyStallResult
    ∧ (stallPage "b" true (some "c1")).nodes.isEmpty = false
    ∧ cursorTruthy (some "c1") = true
    ∧ goIssues truthyStallOracle 5 0 [mkNode "a"] (some "c1")
        = [mkNode "a"] ++ [mkNode "b"] :=
  ⟨rfl, rfl, rfl,
   (fetchAllCycleIssues_pagination truthyStallOracle 100 none).2.2 4 0 [mkNode "a"]
     (some "c1") truthyStallResult
     (stallPage "b" true (some "c1")) rfl rfl rfl rfl rfl (by decide)⟩

/-! ## Per-team degradation -/

lemma calculateTeamMetrics_nil (team : LinearTeam) (cycle : Option LinearCycle) :
    (calculateTeamMetrics team cycle []).scope = 0
    ∧ (calculateTeamMetrics team cycle []).started = 0
    ∧ (calculateTeamMetrics team cycle []).completed = 0 := by
  refine ⟨?_, ?_, ?_⟩ <;> simp [calculateTeamMetrics]

lemma labelCountsOf_nil : labelCountsOf [] = [] := by
  simp [labelCountsOf, labelMapOf]

/-- C7: a failure while acquiring one team's issues never aborts the
dashboard: the output has one entry per input team, each computed
independently in input order, and the failed team is still emitted, with
its metrics computed over an empty issue list — zero scope, started and
completed and an empty label table. -/
theorem processTeams_degrades_failed_team (teams : List TeamNode)
    (fetchFor : TeamNode → Except ThrownError (List IssueNode))
    (t : TeamNode) (e : ThrownError) (hfail : fetchFor t = .error e) :
    (processTeams teams fetchFor).length = teams.length
    ∧ (∀ i : Nat, (processTeams teams fetchFor)[i]?
        = (teams[i]?).map (fun u => processTeam u (fetchFor u)))
    ∧ (processTeam t (fetchFor t)).base.team = toLinearTeam t
    ∧ (processTeam t (fetchFor t)).base.scope = 0
    ∧ (processTeam t (fetchFor t)).base.started = 0
    ∧ (processTeam t (fetchFor t)).base.completed = 0
    ∧ (processTeam t (fetchFor t)).labelCounts = [] := by
  have hteam : ∀ fr, (processTeam t fr).base.team = toLinearTeam t := by
    intro fr
    unfold processTeam
    cases t.activeCycle with
    | none => rfl
    | some ac => cases fr <;> rfl
  have hzero : (processTeam t (fetchFor t)).base.scope = 0
      ∧ (processTeam t (fetchFor t)).base.started = 0
      ∧ (processTeam t (fetchFor t)).base.completed = 0
      ∧ (processTeam t (fetchFor t)).labelCounts = [] := by
    rw [hfail]
    unfold processTeam
    cases hac : t.activeCycle with
    | none =>
      obtain ⟨h1, h2, h3⟩ := calculateTeamMetrics_nil (toLinearTeam t) none
      exact ⟨h1, h2, h3, labelCountsOf_nil⟩
    | some ac =>
      obtain ⟨h1, h2, h3⟩ := calculateTeamMetrics_nil (toLinearTeam t)
        (some (toLinearCycle (toLinearTeam t) ac))
      exact ⟨h1, h2, h3, labelCountsOf_nil⟩
  refine ⟨?_, ?_, hteam _, hzero.1, hzero.2.1, hzero.2.2.1, hzero.2.2.2⟩
  · simp [processTeams]
  · intro i
    simp [processTeams, List.getElem?_map]

theorem processTeams_degrades_failed_team_witness :
    failFetch witnessTeamNode = .error { message := some "boom", networkErrors := none }
    ∧ (processTeam witnessTeamNode (failFetch witnessTeamNode)).base.scope = 0 :=
  ⟨rfl,
   (processTeams_degrades_failed_team [witnessTeamNode] failFetch witnessTeamNode
     { message := some "boom", networkErrors := none } rfl).2.2.2.1⟩

/-! ## Complexity fallback ladder -/

/-- C4: the fallback ladder of `fetchDashboardData`. When the first
combined query throws a complexity error, exactly one labelled retry is
issued at page size `min 50 initial`; if that also throws a complexity
error, the light label-less variant runs at fixed page size 25 and the
label-backfill flag is set; a non-complexity error at the first or second
step propagates immediately with no further call, and whatever the third
step produces is final. -/
theorem fetchCombined_fallback_ladder
    (oracle : Nat → Except ThrownError TeamsQueryResult)
    (initialPageRaw : Nat) (I : Nat)
    (hI : I = max 10 (min 100 initialPageRaw)) (e : ThrownError)
    (h0 : runCombined (oracle 0) = .error e) :
    (isComplexityError e = false →
      fetchCombinedWithFallbacks oracle initialPageRaw
        = ⟨.error e, I, false, [(true, I)]⟩)
    ∧ (isComplexityError e = true →
        (∀ d, runCombined (oracle 1) = .ok d →
          fetchCombinedWithFallbacks oracle initialPageRaw
            = ⟨.ok d, min 50 I, false, [(true, I), (true, min 50 I)]⟩)
        ∧ (∀ e2, runCombined (oracle 1) = .error e2 →
            (isComplexityError e2 = false →
              fetchCombinedWithFallbacks oracle initialPageRaw
                = ⟨.error e2, min 50 I, false, [(true, I), (true, min 50 I)]⟩)
            ∧ (isComplexityError e2 = true →
              fetchCombinedWithFallbacks oracle initialPageRaw
                = ⟨runCombined (oracle 2), 25, true,
                    [(true, I), (true, min 50 I), (false, 25)]⟩))) := by
  subst hI
  constructor
  · intro hc
    unfold fetchCombinedWithFallbacks
    rw [h0]
    simp [hc]
  · intro hc
    constructor
    · intro d hd
      unfold fetchCombinedWithFallbacks
      rw [h0]
      simp [hc, hd]
    · intro e2 he2
      constructor
      · intro hc2
        unfold fetchCombinedWithFallbacks
        rw [h0]
        simp [hc, he2, hc2]
      · intro hc2
        unfold fetchCombinedWithFallbacks
        rw [h0]
        cases hr3 : runCombined (oracle 2) with
        | ok d => simp [hc, he2, hc2, hr3]
        | error e3 => simp [hc, he2, hc2, hr3]

theorem fetchCombined_fallback_ladder_witness :
    runCombined (ladderOracle 0) = .error complexMsgErr
    ∧ isComplexityError complexMsgErr = true
    ∧ fetchCombinedWithFallbacks ladderOracle 50
        = ⟨.ok (some ladderData), 50, false, [(true, 50), (true, 50)]⟩ :=
  ⟨rfl, by decide,
   ((fetchCombined_fallback_ladder ladderOracle 50 50 rfl complexMsgErr rfl).2
     (by decide)).1 (some ladderData) rfl⟩

/-! ## Accurate triage averaging -/

lemma chunksOfGo_flatten (k : Nat) :
    ∀ (fuel : Nat) (l : List LinearIssue), l.length ≤ fuel →
      (chunksOfGo k fuel l).flatten = l := by
  intro fuel
  induction fuel with
  | zero =>
    intro l hl
    rw [List.length_eq_zero.mp (Nat.le_zero.mp hl)]
    rfl
  | succ fuel ih =>
    intro l hl
    cases l with
    | nil => rfl
    | cons a t =>
      have h1 : 1 ≤ max 1 k := Nat.le_max_left 1 k
      have hdrop : ((a :: t).drop (max 1 k)).length ≤ fuel := by
        rw [List.length_drop]
        simp only [List.length_cons] at hl ⊢
        omega
      rw [chunksOfGo, List.flatten_cons, ih _ hdrop, List.take_append_drop]

lemma chunksOf_flatten (k : Nat) (l : List LinearIssue) :
    (chunksOf k l).flatten = l :=
  chunksOfGo_flatten k l.length l (Nat.le_refl _)

lemma flatten_map_filterMap {α β : Type} (h : α → Option β) (L : List (List α)) :
    (L.map (fun g => g.filterMap h)).flatten = L.flatten.filterMap h := by
  induction L with
  | nil => rfl
  | cons g rest ih =>
    rw [List.map_cons, List.flatten_cons, List.flatten_cons, List.filterMap_append, ih]

/-- C9 counterexample: an issue created at time 0 with no `startedAt`,
whose history holds one transition, from a backlog-typed state into a
triage-typed state, at time 10. Under the claim's rule ("first transition
leaving a triage- or backlog-typed state into any other state") this issue
yields the duration 10 and the average is 10; the code only accepts
transitions whose target type is not `triage`, finds none, and returns no
average at all. -/
theorem computeAccurateTriageAvg_claim_counterexample :
    computeAccurateTriageAvg triageHistoryOracle 6 [mkIssue "i1" none "started"] = none
    ∧ computeAccurateTriageAvgClaim triageHistoryOracle
        [mkIssue "i1" none "started"] = some 10 := by
  constructor
  · decide
  · show some (jsRound (((10 : Int) : ℚ) / ((1 : Nat) : ℚ))) = some 10
    refine congrArg some ?_
    unfold jsRound
    rw [Int.floor_eq_iff]
    constructor <;> norm_num

/-- C9 (amended): with accurate triage mode on, the average is taken over
the first 40 issues, each sampled issue contributing
`issueTriageContribution` of its (bound-20) history fetch: the timestamp
of the first transition whose from-state type (lowercased) is `triage` or
`backlog` and whose to-state type is not `triage`, minus `createdAt`, when
that is strictly positive; else `startedAt − createdAt` when no such
transition exists and that is strictly positive; fetch failures and
non-positive durations contribute nothing, and the result is the rounded
mean of the contributions (none if there are none). The batched
concurrency of the code does not change the result. -/
theorem computeAccurateTriageAvg_spec
    (historyFor : String → Nat → Except ThrownError (List HistoryNode))
    (concurrencyRaw : Nat) (issuesForTeam : List LinearIssue) :
    computeAccurateTriageAvg historyFor concurrencyRaw issuesForTeam
      = (if ((issuesForTeam.take 40).filterMap (fun issue =>
              issueTriageContribution (historyFor issue.id 20) issue)).isEmpty
         then none
         else some (jsRound
           ((((issuesForTeam.take 40).filterMap (fun issue =>
                issueTriageContribution (historyFor issue.id 20) issue)).sum : ℚ)
            / (((issuesForTeam.take 40).filterMap (fun issue =>
                issueTriageContribution (historyFor issue.id 20) issue)).length : ℚ))))
    ∧ (∀ (e : ThrownError) (issue : LinearIssue),
        issueTriageContribution (.error e) issue = none) := by
  constructor
  · unfold computeAccurateTriageAvg
    have hflat : ((chunksOf (max 1 (min 10 concurrencyRaw))
          (issuesForTeam.take 40)).map (fun group =>
            group.filterMap (fun issue =>
              issueTriageContribution (historyFor issue.id 20) issue))).flatten
        = (issuesForTeam.take 40).filterMap (fun issue =>
            issueTriageContribution (historyFor issue.id 20) issue) := by
      rw [flatten_map_filterMap, chunksOf_flatten]
    cases hs : (issuesForTeam.take 40).isEmpty with
    | true =>
      have : issuesForTeam.take 40 = [] := by
        simpa using hs
      simp [hs, this]
    | false =>
      simp only [hs, Bool.false_eq_true, if_false, hflat]
  · intro e issue
    rfl

theorem labelCountsOf_spec_witness :
    bugLabelCount ∈ labelCountsOf [labeledIssue]
    ∧ bugLabelCount.count
      = ((labelOccurrences [labeledIssue]).filter (fun l =>
          l.id == bugLabelCount.id)).length := by
  have hmem : bugLabelCount ∈ labelCountsOf [labeledIssue] := by
    simp [labelCountsOf, labelMapOf, labeledIssue, issueLabels, bumpLabel,
      List.mergeSort, mkIssue, bugLabelCount]
  exact ⟨hmem, (labelCountsOf_spec [labeledIssue]).1 _ hmem⟩
